import Mathlib

/-!
Verification of the kredinou-server wallet / withdrawal / repayment accounting
logic against its specification.

The Mongo collections are embedded as Lean lists of structures, enumerated in
storage (insertion) order, which is the order `find()` yields documents in the
model.  Monetary amounts (Python floats holding currency values) are embedded
as exact rationals `ℚ`; timestamps handled by the late-fee computation are
embedded as integer seconds, matching the day-level granularity of
`timedelta.days`.  Claim-irrelevant document fields (`createdAt`, `updatedAt`,
account name / number, payment service, admin notes) are omitted from the
document structures; the code only writes them, never branches on them.
`ObjectId` values are embedded as `Nat` and user identifiers as `String`.
-/

namespace Kredinou

/-- A document of the `wallets` collection (src/wallet.py). `oid` embeds the
Mongo `_id` field. -/
structure Wallet where
  oid : Nat
  userId : String
  loanId : Nat
  balance : ℚ
  currency : String
deriving DecidableEq

/-- A document of the `loans` collection. -/
structure Loan where
  oid : Nat
  userId : String
  amount : ℚ
  currency : String
  disbursementStatus : String
  status : String
  dueDate : Int
deriving DecidableEq

/-- A document of the `withdrawals` collection.  `walletDeductions` embeds the
per-wallet deduction map of the wallet-ledger variant, in insertion order
(Python dicts preserve it); the loan-balance variant leaves it empty. -/
structure WithdrawalDoc where
  oid : Nat
  userId : String
  amount : ℚ
  walletDeductions : List (Nat × ℚ)
  status : String
deriving DecidableEq

/-- A document of the `repayments` collection. -/
structure RepaymentDoc where
  oid : Nat
  loanId : Nat
  userId : String
  amount : ℚ
  status : String
deriving DecidableEq

/-- A document of the `users` collection (only the fields the claims touch). -/
structure UserDoc where
  uid : String
  balance : ℚ
deriving DecidableEq

/-- The database state: the five collections the accounting code touches. -/
structure DB where
  users : List UserDoc
  loans : List Loan
  wallets : List Wallet
  withdrawals : List WithdrawalDoc
  repayments : List RepaymentDoc
deriving DecidableEq

/-- `wallets_collection.find_one({"_id": i})`: first wallet with the given id. -/
def findWalletById (ws : List Wallet) (i : Nat) : Option Wallet :=
  ws.find? (fun w => w.oid == i)

/-- `wallets_collection.find_one({"userId": uid, "loanId": lid})`. -/
def findWalletByKey (ws : List Wallet) (uid : String) (lid : Nat) : Option Wallet :=
  ws.find? (fun w => w.userId == uid && w.loanId == lid)

/-- `withdrawals_collection.find_one({"_id": i})`. -/
def findWithdrawalById (l : List WithdrawalDoc) (i : Nat) : Option WithdrawalDoc :=
  l.find? (fun w => w.oid == i)

/-- `users_collection.find_one({"_id": i})`. -/
def findUserById (us : List UserDoc) (i : String) : Option UserDoc :=
  us.find? (fun u => u.uid == i)

/-- `loans_collection.find_one({"_id": i})`. -/
def findLoanById (ls : List Loan) (i : Nat) : Option Loan :=
  ls.find? (fun l => l.oid == i)

/-- `repayments_collection.find_one({"_id": i})`. -/
def findRepaymentById (rs : List RepaymentDoc) (i : Nat) : Option RepaymentDoc :=
  rs.find? (fun r => r.oid == i)

/-- `wallets_collection.update_one({"_id": i}, {"$set": {"balance": b}})`:
rewrite the balance of the first wallet whose id matches. -/
def updateWalletBalance : List Wallet → Nat → ℚ → List Wallet
  | [], _, _ => []
  | w :: rest, i, b =>
    if w.oid = i then { w with balance := b } :: rest
    else w :: updateWalletBalance rest i b

/-- `withdrawals_collection.update_one({"_id": i}, {"$set": {"status": s}})`. -/
def setWithdrawalStatus : List WithdrawalDoc → Nat → String → List WithdrawalDoc
  | [], _, _ => []
  | w :: rest, i, s =>
    if w.oid = i then { w with status := s } :: rest
    else w :: setWithdrawalStatus rest i s

/-- `users_collection.update_one({"_id": i}, {"$set": {"balance": b}})`. -/
def updateUserBalance : List UserDoc → String → ℚ → List UserDoc
  | [], _, _ => []
  | u :: rest, i, b =>
    if u.uid = i then { u with balance := b } :: rest
    else u :: updateUserBalance rest i b

/-- `repayments_collection.update_one({"_id": i}, {"$set": {"status": s}})`. -/
def setRepaymentStatus : List RepaymentDoc → Nat → String → List RepaymentDoc
  | [], _, _ => []
  | r :: rest, i, s =>
    if r.oid = i then { r with status := s } :: rest
    else r :: setRepaymentStatus rest i s

/-- `loans_collection.update_one({"_id": i}, {"$set": {"status": s}})`. -/
def setLoanStatus : List Loan → Nat → String → List Loan
  | [], _, _ => []
  | l :: rest, i, s =>
    if l.oid = i then { l with status := s } :: rest
    else l :: setLoanStatus rest i s

/-!  ### Withdrawal creation, wallet-ledger variant (src/wallet.py, `make_withdrawal`)  -/

/-- `wallets_collection.find({"userId": user_id})`: the snapshot list the
deduction loop iterates over. -/
def userWallets (db : DB) (uid : String) : List Wallet :=
  db.wallets.filter (fun w => w.userId == uid)

/-- `sum(w.get("balance", 0) for w in wallets)` over the user's wallets. -/
def walletTotal (db : DB) (uid : String) : ℚ :=
  ((userWallets db uid).map (fun w => w.balance)).sum

/-- Error outcomes of `make_withdrawal` (wallet.py lines 96-112).  The missing
field and non-numeric cases are folded into `nonPositive`, the only check on
the parsed amount the claims reach. -/
inductive WithdrawErr
  | nonPositive
  | noWallet
  | insufficientFunds
deriving DecidableEq

/-- The deduction loop of `make_withdrawal` (wallet.py lines 114-136): iterate
over the snapshot of the user's wallets; if a wallet balance covers the
remaining amount, write back the difference and stop, recording the remaining
amount; otherwise write back zero, record the whole balance, and carry the
remainder.  Returns the updated `wallets` collection and the recorded
`deducted_per_wallet` pairs in insertion order. -/
def deductLoop : List Wallet → List Wallet → ℚ → List Wallet × List (Nat × ℚ)
  | dbw, [], _ => (dbw, [])
  | dbw, w :: rest, rem =>
    if rem ≤ w.balance then
      (updateWalletBalance dbw w.oid (w.balance - rem), [(w.oid, rem)])
    else
      let r := deductLoop (updateWalletBalance dbw w.oid 0) rest (rem - w.balance)
      (r.1, (w.oid, w.balance) :: r.2)

/-- `make_withdrawal` (wallet.py lines 84-159): validate the amount, require a
wallet, require the amount not to exceed the total balance, then run the
deduction loop and insert a pending withdrawal carrying the per-wallet
deductions.  `wid` is the ObjectId Mongo assigns to the inserted document.
The returned `DB` is the state after the call (unchanged on error, since the
code returns before any write). -/
def make_withdrawal (db : DB) (uid : String) (amount : ℚ) (wid : Nat) :
    Except WithdrawErr WithdrawalDoc × DB :=
  if amount ≤ 0 then (.error .nonPositive, db)
  else
    let ws := userWallets db uid
    if ws.isEmpty then (.error .noWallet, db)
    else if (ws.map (fun w => w.balance)).sum < amount then
      (.error .insufficientFunds, db)
    else
      let r := deductLoop db.wallets ws amount
      let wd : WithdrawalDoc :=
        { oid := wid, userId := uid, amount := amount,
          walletDeductions := r.2, status := "pending" }
      (.ok wd, { db with wallets := r.1, withdrawals := db.withdrawals ++ [wd] })

/-!  ### Lemmas about the deduction loop  -/

lemma deductLoop_sum (snap : List Wallet) :
    ∀ (dbw : List Wallet) (rem : ℚ), 0 < rem →
      rem ≤ (snap.map (fun w => w.balance)).sum →
      ((deductLoop dbw snap rem).2.map Prod.snd).sum = rem := by
  induction snap with
  | nil =>
    intro dbw rem hpos hle
    simp at hle
    exact absurd (lt_of_lt_of_le hpos hle) (lt_irrefl 0)
  | cons w rest ih =>
    intro dbw rem hpos hle
    by_cases h : rem ≤ w.balance
    · simp [deductLoop, h]
    · have hlt : w.balance < rem := lt_of_not_le h
      have hpos2 : 0 < rem - w.balance := sub_pos.mpr hlt
      have hle2 : rem - w.balance ≤ (rest.map (fun w => w.balance)).sum := by
        simp [List.map_cons, List.sum_cons] at hle
        linarith
      simp only [deductLoop, if_neg h, List.map_cons, List.sum_cons]
      rw [ih _ _ hpos2 hle2]
      ring

/-- On the success path (positive amount, at least one wallet, amount within
the total balance), `make_withdrawal` runs the deduction loop and inserts the
pending withdrawal carrying the recorded deductions. -/
lemma make_withdrawal_success (db : DB) (uid : String) (amount : ℚ) (wid : Nat)
    (hpos : 0 < amount) (hne : userWallets db uid ≠ [])
    (hle : amount ≤ walletTotal db uid) :
    make_withdrawal db uid amount wid =
      (.ok { oid := wid, userId := uid, amount := amount,
             walletDeductions := (deductLoop db.wallets (userWallets db uid) amount).2,
             status := "pending" },
       { db with
         wallets := (deductLoop db.wallets (userWallets db uid) amount).1,
         withdrawals := db.withdrawals ++
           [{ oid := wid, userId := uid, amount := amount,
              walletDeductions := (deductLoop db.wallets (userWallets db uid) amount).2,
              status := "pending" }] }) := by
  have h0 : ¬ amount ≤ 0 := not_le.mpr hpos
  have hemp : (userWallets db uid).isEmpty = false := by
    cases h : userWallets db uid with
    | nil => exact absurd h hne
    | cons a l => simp
  have hns : ¬ ((userWallets db uid).map (fun w => w.balance)).sum < amount :=
    not_lt.mpr hle
  simp only [make_withdrawal, if_neg h0, hemp, Bool.false_eq_true, if_false, if_neg hns]

/-- Claim C1: in the wallet-ledger variant, whenever the requested amount `A`
is positive, the user has at least one wallet, and `A` does not exceed the
total wallet balance `B`, `make_withdrawal` succeeds and the per-wallet
deductions recorded on the created withdrawal document sum to exactly `A`. -/
theorem make_withdrawal_deductions_sum (db : DB) (uid : String) (amount : ℚ) (wid : Nat)
    (hpos : 0 < amount) (hne : userWallets db uid ≠ [])
    (hle : amount ≤ walletTotal db uid) :
    ∃ wd db', make_withdrawal db uid amount wid = (.ok wd, db') ∧
      (wd.walletDeductions.map Prod.snd).sum = amount :=
  ⟨_, _, make_withdrawal_success db uid amount wid hpos hne hle,
    deductLoop_sum _ _ _ hpos hle⟩

/-- Example database: user `u1` holds wallets of 500 and 300 HTG. -/
def dbTwoWallets : DB :=
  { users := [], loans := [],
    wallets :=
      [{ oid := 1, userId := "u1", loanId := 11, balance := 500, currency := "HTG" },
       { oid := 2, userId := "u1", loanId := 12, balance := 300, currency := "HTG" }],
    withdrawals := [], repayments := [] }

/-- Witness for C1: a user with wallets of 500 and 300 withdraws 700; the
theorem applies and the recorded deductions sum to 700. -/
theorem make_withdrawal_deductions_sum_witness :
    ∃ wd db', make_withdrawal dbTwoWallets "u1" 700 5 = (.ok wd, db') ∧
      (wd.walletDeductions.map Prod.snd).sum = 700 :=
  make_withdrawal_deductions_sum dbTwoWallets "u1" 700 5 (by norm_num)
    (by decide) (by norm_num [walletTotal, userWallets, dbTwoWallets])

/-!  ### Admin approve / reject, wallet-ledger variant (src/wallet.py)  -/

/-- The restoration loop of `admin_reject_withdrawal` (wallet.py lines
262-270): for each recorded (wallet id, deducted amount) pair, look the wallet
up and, when present, add the deducted amount back onto its current balance. -/
def restoreLoop : List Wallet → List (Nat × ℚ) → List Wallet
  | dbw, [] => dbw
  | dbw, (i, amt) :: rest =>
    match findWalletById dbw i with
    | none => restoreLoop dbw rest
    | some w => restoreLoop (updateWalletBalance dbw i (w.balance + amt)) rest

/-- `admin_reject_withdrawal` (wallet.py lines 253-283): look the withdrawal
up, credit back every recorded per-wallet deduction, and set the status to
"rejected".  Note: the code performs no check that the withdrawal is
currently pending. -/
def admin_reject_withdrawal (db : DB) (wid : Nat) : Except Unit DB :=
  match findWithdrawalById db.withdrawals wid with
  | none => .error ()
  | some wd =>
    .ok { db with
          wallets := restoreLoop db.wallets wd.walletDeductions,
          withdrawals := setWithdrawalStatus db.withdrawals wid "rejected" }

/-- `admin_approve_withdrawal` (wallet.py lines 238-251): look the withdrawal
up and set its status to "approved".  Note: the code performs no check that
the withdrawal is currently pending, and touches no wallet. -/
def admin_approve_withdrawal (db : DB) (wid : Nat) : Except Unit DB :=
  match findWithdrawalById db.withdrawals wid with
  | none => .error ()
  | some _ =>
    .ok { db with withdrawals := setWithdrawalStatus db.withdrawals wid "approved" }

/-!  ### Lemmas about wallet lookup and first-match update  -/

lemma find?_append_some {α : Type} (p : α → Bool) {l1 : List α} (l2 : List α) {a : α}
    (h : l1.find? p = some a) : (l1 ++ l2).find? p = some a := by
  induction l1 with
  | nil => simp [List.find?] at h
  | cons x xs ih =>
    cases hx : p x with
    | true => simp_all [List.find?]
    | false => simp_all [List.find?]

lemma find?_append_none {α : Type} (p : α → Bool) {l1 : List α} (l2 : List α)
    (h : l1.find? p = none) : (l1 ++ l2).find? p = l2.find? p := by
  induction l1 with
  | nil => simp
  | cons x xs ih =>
    cases hx : p x with
    | true => simp [List.find?, hx] at h
    | false => simp_all [List.find?]

lemma findWalletById_cons_self {w : Wallet} (rest : List Wallet) {i : Nat} (h : w.oid = i) :
    findWalletById (w :: rest) i = some w := by
  simp [findWalletById, h]

lemma findWalletById_cons_ne {w : Wallet} (rest : List Wallet) {i : Nat} (h : w.oid ≠ i) :
    findWalletById (w :: rest) i = findWalletById rest i := by
  simp [findWalletById, h]

lemma updateWalletBalance_oid_map (dbw : List Wallet) (i : Nat) (b : ℚ) :
    (updateWalletBalance dbw i b).map (fun w => w.oid) = dbw.map (fun w => w.oid) := by
  induction dbw with
  | nil => rfl
  | cons w rest ih =>
    by_cases h : w.oid = i
    · simp [updateWalletBalance, h]
    · simp [updateWalletBalance, h, ih]

lemma findWalletById_update_ne (dbw : List Wallet) {i j : Nat} (b : ℚ) (hij : i ≠ j) :
    findWalletById (updateWalletBalance dbw i b) j = findWalletById dbw j := by
  induction dbw with
  | nil => rfl
  | cons w rest ih =>
    by_cases h : w.oid = i
    · have hwj : w.oid ≠ j := by rw [h]; exact hij
      rw [updateWalletBalance, if_pos h,
        findWalletById_cons_ne rest (show ({ w with balance := b } : Wallet).oid ≠ j from hwj),
        findWalletById_cons_ne rest hwj]
    · rw [updateWalletBalance, if_neg h]
      by_cases hj : w.oid = j
      · rw [findWalletById_cons_self _ hj, findWalletById_cons_self _ hj]
      · rw [findWalletById_cons_ne _ hj, findWalletById_cons_ne _ hj, ih]

lemma findWalletById_update_eq (dbw : List Wallet) (i : Nat) (b : ℚ) :
    findWalletById (updateWalletBalance dbw i b) i =
      (findWalletById dbw i).map (fun w => { w with balance := b }) := by
  induction dbw with
  | nil => rfl
  | cons w rest ih =>
    by_cases h : w.oid = i
    · rw [updateWalletBalance, if_pos h,
        findWalletById_cons_self rest (show ({ w with balance := b } : Wallet).oid = i from h),
        findWalletById_cons_self rest h]
      rfl
    · rw [updateWalletBalance, if_neg h, findWalletById_cons_ne _ h,
        findWalletById_cons_ne _ h, ih]

lemma updateWalletBalance_self {dbw : List Wallet} {i : Nat} {w : Wallet}
    (h : findWalletById dbw i = some w) :
    updateWalletBalance dbw i w.balance = dbw := by
  induction dbw with
  | nil => simp [findWalletById] at h
  | cons x rest ih =>
    by_cases hx : x.oid = i
    · rw [findWalletById_cons_self _ hx] at h
      obtain rfl : x = w := by injection h
      rw [updateWalletBalance, if_pos hx]
    · rw [findWalletById_cons_ne _ hx] at h
      rw [updateWalletBalance, if_neg hx, ih h]

lemma updateWalletBalance_update (dbw : List Wallet) (i : Nat) (b c : ℚ) :
    updateWalletBalance (updateWalletBalance dbw i b) i c = updateWalletBalance dbw i c := by
  induction dbw with
  | nil => rfl
  | cons w rest ih =>
    by_cases h : w.oid = i
    · simp [updateWalletBalance, h]
    · simp [updateWalletBalance, h, ih]

lemma updateWalletBalance_comm (dbw : List Wallet) {i j : Nat} (b c : ℚ) (hij : i ≠ j) :
    updateWalletBalance (updateWalletBalance dbw i b) j c =
      updateWalletBalance (updateWalletBalance dbw j c) i b := by
  induction dbw with
  | nil => rfl
  | cons w rest ih =>
    by_cases hi : w.oid = i
    · have hj : ¬ w.oid = j := by rw [hi]; exact hij
      simp [updateWalletBalance, hi, hj, hij, hij.symm]
    · by_cases hj : w.oid = j
      · simp [updateWalletBalance, hi, hj, hij, hij.symm]
      · simp [updateWalletBalance, hi, hj, ih]

/-- Every recorded deduction names a snapshot wallet and stays within its
balance. -/
lemma deductLoop_deduction_le (snap : List Wallet) :
    ∀ (dbw : List Wallet) (rem : ℚ), ∀ d ∈ (deductLoop dbw snap rem).2,
      ∃ w ∈ snap, w.oid = d.1 ∧ d.2 ≤ w.balance := by
  induction snap with
  | nil => intro dbw rem d hd; simp [deductLoop] at hd
  | cons w rest ih =>
    intro dbw rem d hd
    by_cases h : rem ≤ w.balance
    · simp [deductLoop, h] at hd
      exact ⟨w, by simp, by simp [hd], by simp [hd, h]⟩
    · simp only [deductLoop, if_neg h, List.mem_cons] at hd
      rcases hd with hd | hd
      · exact ⟨w, by simp, by simp [hd], by simp [hd]⟩
      · obtain ⟨w', hw', hoid, hle⟩ := ih _ _ d hd
        exact ⟨w', by simp [hw'], hoid, hle⟩

/-- The deduction loop leaves wallets outside the snapshot id set untouched
(as seen through id lookup). -/
lemma deductLoop_find_notmem (snap : List Wallet) :
    ∀ (dbw : List Wallet) (rem : ℚ) (j : Nat),
      j ∉ snap.map (fun w => w.oid) →
      findWalletById (deductLoop dbw snap rem).1 j = findWalletById dbw j := by
  induction snap with
  | nil => intro dbw rem j _; rfl
  | cons w rest ih =>
    intro dbw rem j hj
    simp only [List.map_cons, List.mem_cons, not_or] at hj
    have hwj : w.oid ≠ j := fun he => hj.1 he.symm
    by_cases h : rem ≤ w.balance
    · simp only [deductLoop, if_pos h]
      exact findWalletById_update_ne dbw _ hwj
    · simp only [deductLoop, if_neg h]
      rw [ih _ _ j hj.2, findWalletById_update_ne dbw _ hwj]

lemma restoreLoop_cons_none {dbw : List Wallet} {i : Nat} {amt : ℚ}
    {rest : List (Nat × ℚ)} (h : findWalletById dbw i = none) :
    restoreLoop dbw ((i, amt) :: rest) = restoreLoop dbw rest := by
  simp [restoreLoop, h]

lemma restoreLoop_cons_some {dbw : List Wallet} {i : Nat} {amt : ℚ} {w : Wallet}
    {rest : List (Nat × ℚ)} (h : findWalletById dbw i = some w) :
    restoreLoop dbw ((i, amt) :: rest) =
      restoreLoop (updateWalletBalance dbw i (w.balance + amt)) rest := by
  simp [restoreLoop, h]

/-- Crediting a wallet whose id is not among the remaining deduction records
commutes with the restoration loop. -/
lemma restoreLoop_update_comm (ds : List (Nat × ℚ)) :
    ∀ (dbw : List Wallet) (i : Nat) (b : ℚ), i ∉ ds.map Prod.fst →
      restoreLoop (updateWalletBalance dbw i b) ds =
        updateWalletBalance (restoreLoop dbw ds) i b := by
  induction ds with
  | nil => intro dbw i b _; rfl
  | cons d rest ih =>
    intro dbw i b hi
    obtain ⟨di, da⟩ := d
    simp only [List.map_cons, List.mem_cons, not_or] at hi
    obtain ⟨hne, hrest⟩ := hi
    have hfind : findWalletById (updateWalletBalance dbw i b) di = findWalletById dbw di :=
      findWalletById_update_ne dbw b hne
    cases hf : findWalletById dbw di with
    | none =>
      rw [restoreLoop_cons_none (hfind.trans hf), restoreLoop_cons_none hf]
      exact ih dbw i b hrest
    | some w =>
      rw [restoreLoop_cons_some (hfind.trans hf), restoreLoop_cons_some hf]
      rw [updateWalletBalance_comm dbw _ _ hne]
      exact ih _ i b hrest

/-- Round trip: restoring the deductions recorded by the deduction loop
recovers the wallet collection exactly, provided the snapshot wallets have
pairwise distinct ids and each one is what id lookup in the collection
returns (both guaranteed by Mongo's `_id` uniqueness for the snapshot
`find({"userId": uid})` produces). -/
lemma deductLoop_restore (snap : List Wallet) :
    ∀ (dbw : List Wallet) (rem : ℚ),
      (snap.map (fun w => w.oid)).Nodup →
      (∀ w ∈ snap, findWalletById dbw w.oid = some w) →
      restoreLoop (deductLoop dbw snap rem).1 (deductLoop dbw snap rem).2 = dbw := by
  induction snap with
  | nil => intro dbw rem _ _; rfl
  | cons w rest ih =>
    intro dbw rem hnd hself
    simp only [List.map_cons, List.nodup_cons] at hnd
    obtain ⟨hw_notin, hnd_rest⟩ := hnd
    have hw : findWalletById dbw w.oid = some w := hself w (by simp)
    by_cases h : rem ≤ w.balance
    · simp only [deductLoop, if_pos h]
      have hf : findWalletById (updateWalletBalance dbw w.oid (w.balance - rem)) w.oid
          = some { w with balance := w.balance - rem } := by
        rw [findWalletById_update_eq dbw w.oid, hw]; rfl
      rw [restoreLoop_cons_some hf]
      show restoreLoop
        (updateWalletBalance (updateWalletBalance dbw w.oid (w.balance - rem)) w.oid
          (w.balance - rem + rem)) [] = dbw
      rw [restoreLoop, updateWalletBalance_update]
      have hb : w.balance - rem + rem = w.balance := by ring
      rw [hb, updateWalletBalance_self hw]
    · simp only [deductLoop, if_neg h]
      have hself1 : ∀ w' ∈ rest,
          findWalletById (updateWalletBalance dbw w.oid 0) w'.oid = some w' := by
        intro w' hw'
        have hne : w.oid ≠ w'.oid := fun he => hw_notin (he ▸ List.mem_map_of_mem _ hw')
        rw [findWalletById_update_ne dbw 0 hne]
        exact hself w' (by simp [hw'])
      have hfind0 :
          findWalletById
            (deductLoop (updateWalletBalance dbw w.oid 0) rest (rem - w.balance)).1 w.oid
            = some { w with balance := 0 } := by
        rw [deductLoop_find_notmem rest _ _ w.oid hw_notin,
          findWalletById_update_eq dbw w.oid, hw]
        rfl
      rw [restoreLoop_cons_some hfind0]
      have hds : w.oid ∉
          ((deductLoop (updateWalletBalance dbw w.oid 0) rest (rem - w.balance)).2.map
            Prod.fst) := by
        intro hmem
        simp only [List.mem_map] at hmem
        obtain ⟨d, hd, hfst⟩ := hmem
        obtain ⟨w', hw', hoid, _⟩ := deductLoop_deduction_le rest _ _ d hd
        refine hw_notin ?_
        rw [← hfst, ← hoid]
        exact List.mem_map_of_mem _ hw'
      have hzero : ({ w with balance := 0 } : Wallet).balance + w.balance = w.balance := by
        simp
      rw [hzero, restoreLoop_update_comm _ _ _ _ hds,
        ih _ _ hnd_rest hself1, updateWalletBalance_update,
        updateWalletBalance_self hw]

/-- With distinct ids (Mongo `_id` uniqueness), id lookup returns each member
itself. -/
lemma findWalletById_self (dbw : List Wallet) (hnd : (dbw.map (fun w => w.oid)).Nodup) :
    ∀ w ∈ dbw, findWalletById dbw w.oid = some w := by
  induction dbw with
  | nil => intro w hw; simp at hw
  | cons x rest ih =>
    intro w hw
    simp only [List.map_cons, List.nodup_cons] at hnd
    rcases List.mem_cons.mp hw with rfl | hw'
    · exact findWalletById_cons_self _ rfl
    · have hne : x.oid ≠ w.oid := fun he => hnd.1 (he ▸ List.mem_map_of_mem _ hw')
      rw [findWalletById_cons_ne _ hne]
      exact ih hnd.2 w hw'

lemma findWithdrawalById_append_fresh {l : List WithdrawalDoc} {wid : Nat}
    (h : findWithdrawalById l wid = none) (wd : WithdrawalDoc) (hoid : wd.oid = wid) :
    findWithdrawalById (l ++ [wd]) wid = some wd := by
  unfold findWithdrawalById at h ⊢
  rw [List.find?_append, h]
  simp [hoid]

lemma admin_reject_withdrawal_some {db : DB} {wid : Nat} {wd : WithdrawalDoc}
    (h : findWithdrawalById db.withdrawals wid = some wd) :
    admin_reject_withdrawal db wid =
      .ok { db with
            wallets := restoreLoop db.wallets wd.walletDeductions,
            withdrawals := setWithdrawalStatus db.withdrawals wid "rejected" } := by
  simp [admin_reject_withdrawal, h]

/-- Claim C2: in the wallet-ledger variant, creating a withdrawal and then
rejecting it, with no intervening operation, credits back each recorded
per-wallet deduction, so the wallet collection returns exactly to its
pre-creation state.  `hnd` and `hfresh` embed Mongo's `_id` uniqueness for
the wallets and for the newly inserted withdrawal. -/
theorem make_withdrawal_reject_roundtrip (db : DB) (uid : String) (amount : ℚ) (wid : Nat)
    (hpos : 0 < amount) (hne : userWallets db uid ≠ [])
    (hle : amount ≤ walletTotal db uid)
    (hnd : (db.wallets.map (fun w => w.oid)).Nodup)
    (hfresh : findWithdrawalById db.withdrawals wid = none) :
    ∃ wd db1 db2, make_withdrawal db uid amount wid = (.ok wd, db1) ∧
      admin_reject_withdrawal db1 wid = .ok db2 ∧
      db2.wallets = db.wallets := by
  have hsub : ((userWallets db uid).map (fun w => w.oid)).Sublist
      (db.wallets.map (fun w => w.oid)) :=
    (List.filter_sublist _).map _
  have hndsnap := hnd.sublist hsub
  have hself : ∀ w ∈ userWallets db uid, findWalletById db.wallets w.oid = some w :=
    fun w hw => findWalletById_self db.wallets hnd w (List.mem_of_mem_filter hw)
  have hrestore := deductLoop_restore (userWallets db uid) db.wallets amount hndsnap hself
  have hmk := make_withdrawal_success db uid amount wid hpos hne hle
  set r := deductLoop db.wallets (userWallets db uid) amount with hrdef
  set wdd : WithdrawalDoc :=
    { oid := wid, userId := uid, amount := amount,
      walletDeductions := r.2, status := "pending" } with hwdd
  set db1 : DB := { db with wallets := r.1, withdrawals := db.withdrawals ++ [wdd] }
    with hdb1
  have hfind : findWithdrawalById db1.withdrawals wid = some wdd :=
    findWithdrawalById_append_fresh hfresh wdd rfl
  have hrej := admin_reject_withdrawal_some hfind
  exact ⟨wdd, db1, _, hmk, hrej, hrestore⟩

/-- Witness for C2: wallets of 500 and 300, withdrawal of 700 created then
rejected; balances return to 500 and 300. -/
theorem make_withdrawal_reject_roundtrip_witness :
    ∃ wd db1 db2, make_withdrawal dbTwoWallets "u1" 700 5 = (.ok wd, db1) ∧
      admin_reject_withdrawal db1 5 = .ok db2 ∧
      db2.wallets = dbTwoWallets.wallets :=
  make_withdrawal_reject_roundtrip dbTwoWallets "u1" 700 5 (by norm_num)
    (by decide) (by norm_num [walletTotal, userWallets, dbTwoWallets])
    (by decide) rfl

/-!  ### Non-negativity of wallet balances through withdrawal creation  -/

lemma updateWalletBalance_nonneg {uid : String} {dbw : List Wallet} {i : Nat} {b : ℚ}
    (hb : 0 ≤ b) (h : ∀ w ∈ dbw, w.userId = uid → 0 ≤ w.balance) :
    ∀ w' ∈ updateWalletBalance dbw i b, w'.userId = uid → 0 ≤ w'.balance := by
  induction dbw with
  | nil => intro w' hw'; simp [updateWalletBalance] at hw'
  | cons w rest ih =>
    intro w' hw'
    by_cases hc : w.oid = i
    · rw [updateWalletBalance, if_pos hc] at hw'
      rcases List.mem_cons.mp hw' with rfl | hmem
      · intro _; exact hb
      · exact h w' (by simp [hmem])
    · rw [updateWalletBalance, if_neg hc] at hw'
      rcases List.mem_cons.mp hw' with rfl | hmem
      · exact h w' (by simp)
      · exact ih (fun x hx => h x (by simp [hx])) w' hmem

/-- The deduction loop only ever writes non-negative balances: the stopping
write is `balance - remaining` under `balance ≥ remaining`, every other write
is zero. -/
lemma deductLoop_nonneg (uid : String) (snap : List Wallet) :
    ∀ (dbw : List Wallet) (rem : ℚ),
      (∀ w ∈ dbw, w.userId = uid → 0 ≤ w.balance) →
      ∀ w' ∈ (deductLoop dbw snap rem).1, w'.userId = uid → 0 ≤ w'.balance := by
  induction snap with
  | nil => intro dbw rem h; exact h
  | cons w rest ih =>
    intro dbw rem h
    by_cases hc : rem ≤ w.balance
    · simp only [deductLoop, if_pos hc]
      exact updateWalletBalance_nonneg (sub_nonneg.mpr hc) h
    · simp only [deductLoop, if_neg hc]
      exact ih _ _ (updateWalletBalance_nonneg le_rfl h)

/-- Claim C9: a successful withdrawal creation preserves non-negativity of
the user's wallet balances; moreover no recorded deduction exceeds the
balance of the wallet it was taken from. -/
theorem make_withdrawal_preserves_nonneg (db : DB) (uid : String) (amount : ℚ) (wid : Nat)
    (hpos : 0 < amount) (hne : userWallets db uid ≠ [])
    (hle : amount ≤ walletTotal db uid)
    (hnn : ∀ w ∈ db.wallets, w.userId = uid → 0 ≤ w.balance) :
    ∃ wd db', make_withdrawal db uid amount wid = (.ok wd, db') ∧
      (∀ w ∈ db'.wallets, w.userId = uid → 0 ≤ w.balance) ∧
      (∀ d ∈ wd.walletDeductions, ∃ w ∈ userWallets db uid, w.oid = d.1 ∧ d.2 ≤ w.balance) :=
  ⟨_, _, make_withdrawal_success db uid amount wid hpos hne hle,
    deductLoop_nonneg uid (userWallets db uid) db.wallets amount hnn,
    deductLoop_deduction_le (userWallets db uid) db.wallets amount⟩

/-- Witness for C9: the 700-out-of-(500,300) withdrawal keeps every balance
of the user non-negative. -/
theorem make_withdrawal_preserves_nonneg_witness :
    ∃ wd db', make_withdrawal dbTwoWallets "u1" 700 5 = (.ok wd, db') ∧
      (∀ w ∈ db'.wallets, w.userId = "u1" → 0 ≤ w.balance) ∧
      (∀ d ∈ wd.walletDeductions,
        ∃ w ∈ userWallets dbTwoWallets "u1", w.oid = d.1 ∧ d.2 ≤ w.balance) :=
  make_withdrawal_preserves_nonneg dbTwoWallets "u1" 700 5 (by norm_num)
    (by decide) (by norm_num [walletTotal, userWallets, dbTwoWallets])
    (by decide)

/-!  ### Claim C3: requests beyond the total balance  -/

/-- A database with no documents at all (in particular no wallet for any
user). -/
def dbEmpty : DB :=
  { users := [], loans := [], wallets := [], withdrawals := [], repayments := [] }

/-- Counterexample to C3 as stated: a user with no wallets has wallets
summing to `B = 0`; a request for `A = 5 > 0 = B` is indeed refused without
any change, but with the no-wallet error, not the insufficient-funds
error. -/
theorem make_withdrawal_no_wallet_error :
    walletTotal dbEmpty "u1" = 0 ∧ (0 : ℚ) < 5 ∧
    make_withdrawal dbEmpty "u1" 5 1 = (.error .noWallet, dbEmpty) ∧
    (make_withdrawal dbEmpty "u1" 5 1).1 ≠ .error .insufficientFunds := by
  have h : make_withdrawal dbEmpty "u1" 5 1 = (.error .noWallet, dbEmpty) := by
    norm_num [make_withdrawal, userWallets, dbEmpty]
  refine ⟨rfl, by norm_num, h, ?_⟩
  rw [h]
  simp

/-- Claim C3 (amended): for a positive requested amount `A` and a user owning
at least one wallet, a request with `A` strictly above the total balance `B`
is refused with the insufficient-funds error, no wallet balance changes and
no withdrawal document is created (the returned state is the input state); a
user with no wallets gets the no-wallet error instead, likewise without any
change. -/
theorem make_withdrawal_insufficient (db : DB) (uid : String) (amount : ℚ) (wid : Nat)
    (hpos : 0 < amount) (hne : userWallets db uid ≠ [])
    (hgt : walletTotal db uid < amount) :
    make_withdrawal db uid amount wid = (.error .insufficientFunds, db) := by
  have h0 : ¬ amount ≤ 0 := not_le.mpr hpos
  have hemp : (userWallets db uid).isEmpty = false := by
    cases h : userWallets db uid with
    | nil => exact absurd h hne
    | cons a l => simp
  have hgt' : ((userWallets db uid).map (fun w => w.balance)).sum < amount := hgt
  simp only [make_withdrawal, if_neg h0, hemp, Bool.false_eq_true, if_false, if_pos hgt']

/-- Witness for the amended C3: one wallet of 3, request of 5. -/
theorem make_withdrawal_insufficient_witness :
    make_withdrawal
      { users := [], loans := [],
        wallets := [{ oid := 1, userId := "u1", loanId := 11, balance := 3, currency := "HTG" }],
        withdrawals := [], repayments := [] } "u1" 5 1 =
      (.error .insufficientFunds,
        { users := [], loans := [],
          wallets := [{ oid := 1, userId := "u1", loanId := 11, balance := 3, currency := "HTG" }],
          withdrawals := [], repayments := [] }) :=
  make_withdrawal_insufficient _ "u1" 5 1 (by norm_num) (by decide)
    (by norm_num [walletTotal, userWallets])

/-!  ### Admin approve / reject, account-balance variant
(src/admin_withdrawals.py and src/admin_repayments.py)  -/

inductive AdminErr
  | notFound
  | notPending
  | internalError
deriving DecidableEq

/-- `approve_withdrawal` (admin_withdrawals.py lines 86-112): only a pending
withdrawal may be approved; the amount is deducted from the user's single
`balance` field, clamped at zero, and the status becomes "approved". -/
def approve_withdrawal (db : DB) (wid : Nat) : Except AdminErr DB :=
  match findWithdrawalById db.withdrawals wid with
  | none => .error .notFound
  | some wd =>
    if wd.status = "pending" then
      let users1 :=
        match findUserById db.users wd.userId with
        | none => db.users
        | some u => updateUserBalance db.users wd.userId (max (u.balance - wd.amount) 0)
      .ok { db with
            users := users1,
            withdrawals := setWithdrawalStatus db.withdrawals wid "approved" }
    else .error .notPending

/-- `reject_withdrawal` (admin_withdrawals.py lines 117-135): only a pending
withdrawal may be rejected; rejection is a pure status write. -/
def reject_withdrawal (db : DB) (wid : Nat) : Except AdminErr DB :=
  match findWithdrawalById db.withdrawals wid with
  | none => .error .notFound
  | some wd =>
    if wd.status = "pending" then
      .ok { db with withdrawals := setWithdrawalStatus db.withdrawals wid "rejected" }
    else .error .notPending

/-- `update_withdrawal` (admin_repayments.py lines 205-237) can never reach
its balance update: its `def` line, `def update_withdrawal(, withdrawal_id)`,
is a Python syntax error, and even past that its body's first database read
uses `withdrawals_collection`, a name admin_repayments.py never binds (the
module defines only the repayments, loans and users collections at lines
14-16), so every call raises and the route's catch-all turns that into a 500
response with no mutation performed.  Modelled as exactly that error path:
an internal error with the state unchanged. -/
def update_withdrawal (db : DB) (_wid : Nat) (_status : String) :
    Except AdminErr DB × DB :=
  (.error .internalError, db)

/-- A ledger with one wallet of balance 100 and one already-rejected
withdrawal recording a deduction of 40 from that wallet. -/
def dbRejected : DB :=
  { users := [], loans := [],
    wallets := [{ oid := 1, userId := "u1", loanId := 11, balance := 100, currency := "HTG" }],
    withdrawals := [{ oid := 9, userId := "u1", amount := 40,
                      walletDeductions := [(1, 40)], status := "rejected" }],
    repayments := [] }

/-- Claim C4, evaluated at the failing input: in src/wallet.py neither
`admin_approve_withdrawal` nor `admin_reject_withdrawal` checks the current
status.  On a withdrawal already in status "rejected", approval succeeds and
flips the status to "approved", and rejection succeeds and credits the
recorded 40 back a second time (wallet balance 100 becomes 140) — no
state-conflict error, mutations performed.  The admin_withdrawals.py pair
does behave as the claim states. -/
theorem admin_withdrawal_no_status_check :
    (admin_approve_withdrawal dbRejected 9 =
      .ok { dbRejected with
            withdrawals := [{ oid := 9, userId := "u1", amount := 40,
                              walletDeductions := [(1, 40)], status := "approved" }] }) ∧
    (admin_reject_withdrawal dbRejected 9 =
      .ok { dbRejected with
            wallets := [{ oid := 1, userId := "u1", loanId := 11, balance := 140,
                          currency := "HTG" }] }) ∧
    approve_withdrawal dbRejected 9 = .error .notPending ∧
    reject_withdrawal dbRejected 9 = .error .notPending := by
  refine ⟨?_, ?_, ?_, ?_⟩
  · norm_num [admin_approve_withdrawal, findWithdrawalById, dbRejected, setWithdrawalStatus]
  · norm_num [admin_reject_withdrawal, findWithdrawalById, dbRejected, setWithdrawalStatus,
      restoreLoop, findWalletById, updateWalletBalance]
  · norm_num [approve_withdrawal, findWithdrawalById, dbRejected]
    exact fun h => absurd h (by decide)
  · norm_num [reject_withdrawal, findWithdrawalById, dbRejected]
    exact fun h => absurd h (by decide)

/-!  ### Claim C8: clamped balance deduction on approval  -/

lemma findUserById_cons_self {u : UserDoc} (rest : List UserDoc) {i : String}
    (h : u.uid = i) : findUserById (u :: rest) i = some u := by
  simp [findUserById, h]

lemma findUserById_cons_ne {u : UserDoc} (rest : List UserDoc) {i : String}
    (h : u.uid ≠ i) : findUserById (u :: rest) i = findUserById rest i := by
  simp [findUserById, h]

lemma findUserById_update_eq (us : List UserDoc) (i : String) (b : ℚ) :
    findUserById (updateUserBalance us i b) i =
      (findUserById us i).map (fun u => { u with balance := b }) := by
  induction us with
  | nil => rfl
  | cons u rest ih =>
    by_cases h : u.uid = i
    · rw [updateUserBalance, if_pos h,
        findUserById_cons_self rest (show ({ u with balance := b } : UserDoc).uid = i from h),
        findUserById_cons_self rest h]
      rfl
    · rw [updateUserBalance, if_neg h, findUserById_cons_ne _ h,
        findUserById_cons_ne _ h, ih]

lemma approve_withdrawal_some {db : DB} {wid : Nat} {wd : WithdrawalDoc} {u : UserDoc}
    (hw : findWithdrawalById db.withdrawals wid = some wd)
    (hst : wd.status = "pending")
    (hu : findUserById db.users wd.userId = some u) :
    approve_withdrawal db wid =
      .ok { db with
            users := updateUserBalance db.users wd.userId (max (u.balance - wd.amount) 0),
            withdrawals := setWithdrawalStatus db.withdrawals wid "approved" } := by
  simp [approve_withdrawal, hw, hst, hu]

/-- Claim C8: in the account-balance variant, approving a pending withdrawal
sets the user's balance to `max (old - amount) 0`, which is never negative.
The working implementation of the variant is `approve_withdrawal` in
admin_withdrawals.py; the other cited route, `update_withdrawal` in
admin_repayments.py, is dead code (syntax error on its `def` line and an
unbound collection name) whose only behaviour is a 500 with no mutation, so
it never changes any balance, let alone to a negative value. -/
theorem approve_withdrawal_clamped (db : DB) (wid : Nat) (wd : WithdrawalDoc) (u : UserDoc)
    (hw : findWithdrawalById db.withdrawals wid = some wd)
    (hst : wd.status = "pending")
    (hu : findUserById db.users wd.userId = some u) :
    (∃ db', approve_withdrawal db wid = .ok db' ∧
      findUserById db'.users wd.userId =
        some { u with balance := max (u.balance - wd.amount) 0 } ∧
      0 ≤ max (u.balance - wd.amount) 0) ∧
    update_withdrawal db wid "approved" = (.error .internalError, db) := by
  have hnew : findUserById
      (updateUserBalance db.users wd.userId (max (u.balance - wd.amount) 0)) wd.userId =
      some { u with balance := max (u.balance - wd.amount) 0 } := by
    rw [findUserById_update_eq, hu]
    rfl
  exact ⟨⟨_, approve_withdrawal_some hw hst hu, hnew, le_max_right _ _⟩, rfl⟩

/-- The user `u1` holds a single balance of 100, with a pending withdrawal of
250. -/
def dbPendingUser : DB :=
  { users := [{ uid := "u1", balance := 100 }], loans := [], wallets := [],
    withdrawals := [{ oid := 3, userId := "u1", amount := 250,
                      walletDeductions := [], status := "pending" }],
    repayments := [] }

/-- Witness for C8: balance 100, pending withdrawal of 250; approval clamps
the balance to `max (100 - 250) 0 = 0` rather than letting it go negative,
and the dead admin_repayments.py route changes nothing. -/
theorem approve_withdrawal_clamped_witness :
    (∃ db', approve_withdrawal dbPendingUser 3 = .ok db' ∧
      findUserById db'.users "u1" =
        some { uid := "u1", balance := max ((100 : ℚ) - 250) 0 } ∧
      (0 : ℚ) ≤ max ((100 : ℚ) - 250) 0) ∧
    update_withdrawal dbPendingUser 3 "approved" = (.error .internalError, dbPendingUser) :=
  approve_withdrawal_clamped dbPendingUser 3
    { oid := 3, userId := "u1", amount := 250, walletDeductions := [], status := "pending" }
    { uid := "u1", balance := 100 } rfl rfl rfl

/-!  ### Wallet synchronization (src/wallet.py, `sync_wallet`)  -/

/-- One entry of the list `sync_wallet` returns: loan id, balance, currency
(wallet.py lines 59-63). -/
structure WalletView where
  loanId : Nat
  balance : ℚ
  currency : String
deriving DecidableEq

/-- State of the sync loop: accumulated entries and running total, the
wallets collection, and the next fresh ObjectId. -/
structure GoOut where
  views : List WalletView
  total : ℚ
  wallets : List Wallet
  fresh : Nat
deriving DecidableEq

/-- `loans_collection.find({"userId": uid, "disbursementStatus": "completed"})`. -/
def completedLoans (db : DB) (uid : String) : List Loan :=
  db.loans.filter (fun l => l.userId == uid && l.disbursementStatus == "completed")

/-- The wallet document `sync_wallet` inserts for a completed loan with no
wallet yet (wallet.py lines 45-53): balance is the loan amount. -/
def newWallet (uid : String) (l : Loan) (f : Nat) : Wallet :=
  { oid := f, userId := uid, loanId := l.oid, balance := l.amount, currency := l.currency }

/-- The loop of `sync_wallet` (wallet.py lines 41-63): for each completed
loan, look the wallet up by (user, loan); insert `newWallet` when absent;
report the balance either way and accumulate the total. -/
def syncGo (uid : String) : List Loan → List Wallet → Nat → GoOut
  | [], ws, f => { views := [], total := 0, wallets := ws, fresh := f }
  | l :: rest, ws, f =>
    match findWalletByKey ws uid l.oid with
    | some w =>
      let r := syncGo uid rest ws f
      { views := { loanId := l.oid, balance := w.balance, currency := l.currency } :: r.views,
        total := w.balance + r.total, wallets := r.wallets, fresh := r.fresh }
    | none =>
      let r := syncGo uid rest (ws ++ [newWallet uid l f]) (f + 1)
      { views := { loanId := l.oid, balance := l.amount, currency := l.currency } :: r.views,
        total := l.amount + r.total, wallets := r.wallets, fresh := r.fresh }

/-- Result of `sync_wallet`: the returned (wallets, total_balance) pair
together with the database state and the fresh-id counter after the call. -/
structure SyncResult where
  wallets : List WalletView
  total : ℚ
  db : DB
  fresh : Nat
deriving DecidableEq

/-- `sync_wallet` (wallet.py lines 33-65): no completed loans is a no-op
returning `([], 0)`; otherwise run the loop over the completed loans. -/
def sync_wallet (db : DB) (uid : String) (fresh : Nat) : SyncResult :=
  let ls := completedLoans db uid
  if ls.isEmpty then { wallets := [], total := 0, db := db, fresh := fresh }
  else
    let r := syncGo uid ls db.wallets fresh
    { wallets := r.views, total := r.total,
      db := { db with wallets := r.wallets }, fresh := r.fresh }

lemma findWalletByKey_append_some {ws : List Wallet} {uid : String} {lid : Nat}
    {w : Wallet} (ext : List Wallet) (h : findWalletByKey ws uid lid = some w) :
    findWalletByKey (ws ++ ext) uid lid = some w := by
  unfold findWalletByKey at h ⊢
  rw [List.find?_append, h]
  rfl

lemma findWalletByKey_append_none {ws : List Wallet} {uid : String} {lid : Nat}
    (ext : List Wallet) (h : findWalletByKey ws uid lid = none) :
    findWalletByKey (ws ++ ext) uid lid = findWalletByKey ext uid lid := by
  unfold findWalletByKey at h ⊢
  rw [List.find?_append, h]
  rfl

lemma syncGo_cons_some {uid : String} {l : Loan} {rest : List Loan} {ws : List Wallet}
    {f : Nat} {w : Wallet} (h : findWalletByKey ws uid l.oid = some w) :
    syncGo uid (l :: rest) ws f =
      { views := { loanId := l.oid, balance := w.balance, currency := l.currency } ::
          (syncGo uid rest ws f).views,
        total := w.balance + (syncGo uid rest ws f).total,
        wallets := (syncGo uid rest ws f).wallets,
        fresh := (syncGo uid rest ws f).fresh } := by
  simp [syncGo, h]

lemma syncGo_cons_none {uid : String} {l : Loan} {rest : List Loan} {ws : List Wallet}
    {f : Nat} (h : findWalletByKey ws uid l.oid = none) :
    syncGo uid (l :: rest) ws f =
      { views := { loanId := l.oid, balance := l.amount, currency := l.currency } ::
          (syncGo uid rest (ws ++ [newWallet uid l f]) (f + 1)).views,
        total := l.amount + (syncGo uid rest (ws ++ [newWallet uid l f]) (f + 1)).total,
        wallets := (syncGo uid rest (ws ++ [newWallet uid l f]) (f + 1)).wallets,
        fresh := (syncGo uid rest (ws ++ [newWallet uid l f]) (f + 1)).fresh } := by
  simp [syncGo, h]

/-- The sync loop only appends to the wallet collection. -/
lemma syncGo_wallets_ext (uid : String) (ls : List Loan) :
    ∀ (ws : List Wallet) (f : Nat), ∃ ext, (syncGo uid ls ws f).wallets = ws ++ ext := by
  induction ls with
  | nil => intro ws f; exact ⟨[], by simp [syncGo]⟩
  | cons l rest ih =>
    intro ws f
    cases h : findWalletByKey ws uid l.oid with
    | some w =>
      obtain ⟨ext, hext⟩ := ih ws f
      exact ⟨ext, by rw [syncGo_cons_some h]; exact hext⟩
    | none =>
      obtain ⟨ext, hext⟩ := ih (ws ++ [newWallet uid l f]) (f + 1)
      refine ⟨[newWallet uid l f] ++ ext, ?_⟩
      rw [syncGo_cons_none h]
      rw [hext, List.append_assoc]

/-- A wallet the loop finds by key stays found, unchanged, afterwards. -/
lemma syncGo_find_preserved {uid : String} {ls : List Loan} {ws : List Wallet} {f : Nat}
    {lid : Nat} {w : Wallet} (h : findWalletByKey ws uid lid = some w) :
    findWalletByKey (syncGo uid ls ws f).wallets uid lid = some w := by
  obtain ⟨ext, hext⟩ := syncGo_wallets_ext uid ls ws f
  rw [hext]
  exact findWalletByKey_append_some ext h

/-- Running the sync loop again on its own output changes nothing and
reports the same entries and total. -/
lemma syncGo_rerun (uid : String) (ls : List Loan) :
    ∀ (ws : List Wallet) (f : Nat),
      syncGo uid ls (syncGo uid ls ws f).wallets (syncGo uid ls ws f).fresh =
        syncGo uid ls ws f := by
  induction ls with
  | nil => intro ws f; simp [syncGo]
  | cons l rest ih =>
    intro ws f
    cases h : findWalletByKey ws uid l.oid with
    | some w =>
      have hfind : findWalletByKey (syncGo uid rest ws f).wallets uid l.oid = some w :=
        syncGo_find_preserved h
      simp only [syncGo_cons_some h, syncGo_cons_some hfind, ih ws f]
    | none =>
      have hnw : findWalletByKey (ws ++ [newWallet uid l f]) uid l.oid
          = some (newWallet uid l f) := by
        rw [findWalletByKey_append_none _ h]
        simp [findWalletByKey, newWallet]
      have hfind :
          findWalletByKey (syncGo uid rest (ws ++ [newWallet uid l f]) (f + 1)).wallets
            uid l.oid = some (newWallet uid l f) :=
        syncGo_find_preserved hnw
      simp only [syncGo_cons_none h, syncGo_cons_some hfind,
        ih (ws ++ [newWallet uid l f]) (f + 1)]
      simp [newWallet]

/-- Claim C5: wallet synchronization is idempotent: a second run on the state
the first run produced returns the same wallet set and total, and leaves the
whole database state (in particular every wallet document) unchanged. -/
theorem sync_wallet_idempotent (db : DB) (uid : String) (fresh : Nat) :
    sync_wallet (sync_wallet db uid fresh).db uid (sync_wallet db uid fresh).fresh =
      sync_wallet db uid fresh := by
  by_cases h : (completedLoans db uid).isEmpty
  · simp [sync_wallet, h]
  · have hcl : completedLoans
        { db with
          wallets := (syncGo uid (completedLoans db uid) db.wallets fresh).wallets } uid =
        completedLoans db uid := rfl
    simp only [sync_wallet, if_neg h]
    simp only [hcl, if_neg h, syncGo_rerun uid (completedLoans db uid) db.wallets fresh]

lemma syncGo_total (uid : String) (ls : List Loan) :
    ∀ (ws : List Wallet) (f : Nat),
      (syncGo uid ls ws f).total =
        ((syncGo uid ls ws f).views.map (fun v => v.balance)).sum := by
  induction ls with
  | nil => intro ws f; simp [syncGo]
  | cons l rest ih =>
    intro ws f
    cases h : findWalletByKey ws uid l.oid with
    | some w => simp [syncGo_cons_some h, ih]
    | none => simp [syncGo_cons_none h, ih]

/-- After the sync loop every processed loan has a wallet keyed by
(user, loan), and a wallet that was absent beforehand was created with
balance equal to the loan amount (distinct loan ids embed Mongo `_id`
uniqueness). -/
lemma syncGo_complete (uid : String) (ls : List Loan) :
    ∀ (ws : List Wallet) (f : Nat),
      (ls.map (fun l => l.oid)).Nodup →
      ∀ l ∈ ls, ∃ w, findWalletByKey (syncGo uid ls ws f).wallets uid l.oid = some w ∧
        (findWalletByKey ws uid l.oid = none → w.balance = l.amount) := by
  induction ls with
  | nil => intro ws f _ l hl; simp at hl
  | cons l0 rest ih =>
    intro ws f hnd l hl
    simp only [List.map_cons, List.nodup_cons] at hnd
    obtain ⟨h0, hndr⟩ := hnd
    rcases List.mem_cons.mp hl with rfl | hmem
    · cases h : findWalletByKey ws uid l.oid with
      | some w =>
        refine ⟨w, ?_, fun hc => absurd hc (Option.some_ne_none w)⟩
        simp only [syncGo_cons_some h]
        exact syncGo_find_preserved h
      | none =>
        have hnw : findWalletByKey (ws ++ [newWallet uid l f]) uid l.oid
            = some (newWallet uid l f) := by
          rw [findWalletByKey_append_none _ h]
          simp [findWalletByKey, newWallet]
        refine ⟨newWallet uid l f, ?_, fun _ => rfl⟩
        simp only [syncGo_cons_none h]
        exact syncGo_find_preserved hnw
    · cases h : findWalletByKey ws uid l0.oid with
      | some w0 =>
        simp only [syncGo_cons_some h]
        exact ih ws f hndr l hmem
      | none =>
        simp only [syncGo_cons_none h]
        have hne : l0.oid ≠ l.oid :=
          fun he => h0 (by rw [he]; exact List.mem_map_of_mem _ hmem)
        obtain ⟨w, hfind, hbal⟩ := ih (ws ++ [newWallet uid l0 f]) (f + 1) hndr l hmem
        refine ⟨w, hfind, fun hc => hbal ?_⟩
        rw [findWalletByKey_append_none _ hc]
        simp [findWalletByKey, newWallet, hne]

/-- Claim C7: wallet synchronization is a no-op returning an empty set and
zero total when the user has no completed-disbursement loans; otherwise the
returned total is the sum of the returned per-loan balances, and afterwards
every completed loan of the user has a wallet keyed by (user, loan), created
with balance equal to the loan amount when it did not exist before. -/
theorem sync_wallet_spec (db : DB) (uid : String) (fresh : Nat)
    (hnd : ((completedLoans db uid).map (fun l => l.oid)).Nodup) :
    (completedLoans db uid = [] →
      sync_wallet db uid fresh = { wallets := [], total := 0, db := db, fresh := fresh }) ∧
    (sync_wallet db uid fresh).total =
      ((sync_wallet db uid fresh).wallets.map (fun v => v.balance)).sum ∧
    ∀ l ∈ completedLoans db uid,
      ∃ w, findWalletByKey (sync_wallet db uid fresh).db.wallets uid l.oid = some w ∧
        (findWalletByKey db.wallets uid l.oid = none → w.balance = l.amount) := by
  refine ⟨?_, ?_, ?_⟩
  · intro h; simp [sync_wallet, h]
  · by_cases h : (completedLoans db uid).isEmpty
    · simp [sync_wallet, h]
    · simp only [sync_wallet, if_neg h]
      exact syncGo_total uid _ db.wallets fresh
  · intro l hl
    have h : (completedLoans db uid).isEmpty = false := by
      cases hc : completedLoans db uid with
      | nil => rw [hc] at hl; simp at hl
      | cons a as => simp
    simp only [sync_wallet, h, Bool.false_eq_true, if_false]
    exact syncGo_complete uid _ db.wallets fresh hnd l hl

/-- Two completed loans of 500 and 300 for user `u1`, no wallets yet. -/
def dbTwoLoans : DB :=
  { users := [],
    loans := [{ oid := 21, userId := "u1", amount := 500, currency := "HTG",
                disbursementStatus := "completed", status := "disbursed", dueDate := 0 },
              { oid := 22, userId := "u1", amount := 300, currency := "HTG",
                disbursementStatus := "completed", status := "disbursed", dueDate := 0 }],
    wallets := [], withdrawals := [], repayments := [] }

/-- Witness for C7: syncing `u1` with completed loans of 500 and 300 creates
a wallet for loan 21 with balance 500. -/
theorem sync_wallet_spec_witness :
    ∃ w, findWalletByKey (sync_wallet dbTwoLoans "u1" 10).db.wallets "u1" 21 = some w ∧
      (findWalletByKey dbTwoLoans.wallets "u1" 21 = none → w.balance = 500) :=
  (sync_wallet_spec dbTwoLoans "u1" 10 (by decide)).2.2
    { oid := 21, userId := "u1", amount := 500, currency := "HTG",
      disbursementStatus := "completed", status := "disbursed", dueDate := 0 }
    (by decide)

/-!  ### Repayment verification and loan closure (src/admin_repayments.py)  -/

/-- `repayments_collection.aggregate` summing the amounts of the verified
repayments of a loan (admin_repayments.py lines 97-103). -/
def verifiedTotal (rs : List RepaymentDoc) (loanId : Nat) : ℚ :=
  ((rs.filter (fun r => r.loanId == loanId && r.status == "verified")).map
    (fun r => r.amount)).sum

/-- `((now - dueDate).days // 30) + 1` (admin_repayments.py line 109): the
day count is the floor of the elapsed seconds over 86400 (`timedelta.days`),
and `//` is Python's floor division. -/
def monthsLate (now dueDate : Int) : Int :=
  ((now - dueDate).fdiv 86400).fdiv 30 + 1

/-- Total amount due (admin_repayments.py lines 105-112): principal + 10%
interest + a late fee of 5% of the principal per late month once the due
date has passed. -/
def totalDue (loan : Loan) (now : Int) : ℚ :=
  let principal := loan.amount
  let interest := principal * (10 / 100 : ℚ)
  let lateFee : ℚ :=
    if loan.dueDate < now then principal * (5 / 100 : ℚ) * (monthsLate now loan.dueDate : ℚ)
    else 0
  principal + interest + lateFee

/-- `approve_repayment` (admin_repayments.py lines 78-119): a pending
repayment becomes "verified"; then, when the loan exists, the verified
repayments are summed over the updated collection (so the one just approved
counts) and the loan is marked "repaid" exactly when the sum reaches the
total due.  `now` embeds `datetime.utcnow()` in seconds. -/
def approve_repayment (db : DB) (rid : Nat) (now : Int) : Except AdminErr DB :=
  match findRepaymentById db.repayments rid with
  | none => .error .notFound
  | some r =>
    if r.status = "pending_verification" then
      let reps1 := setRepaymentStatus db.repayments rid "verified"
      let loans1 :=
        match findLoanById db.loans r.loanId with
        | none => db.loans
        | some loan =>
          if totalDue loan now ≤ verifiedTotal reps1 loan.oid then
            setLoanStatus db.loans loan.oid "repaid"
          else db.loans
      .ok { db with repayments := reps1, loans := loans1 }
    else .error .notPending

lemma findRepaymentById_cons_self {r : RepaymentDoc} (rest : List RepaymentDoc) {i : Nat}
    (h : r.oid = i) : findRepaymentById (r :: rest) i = some r := by
  simp [findRepaymentById, h]

lemma findRepaymentById_cons_ne {r : RepaymentDoc} (rest : List RepaymentDoc) {i : Nat}
    (h : r.oid ≠ i) : findRepaymentById (r :: rest) i = findRepaymentById rest i := by
  simp [findRepaymentById, h]

lemma findRepaymentById_set_eq (rs : List RepaymentDoc) (i : Nat) (s : String) :
    findRepaymentById (setRepaymentStatus rs i s) i =
      (findRepaymentById rs i).map (fun r => { r with status := s }) := by
  induction rs with
  | nil => rfl
  | cons r rest ih =>
    by_cases h : r.oid = i
    · rw [setRepaymentStatus, if_pos h,
        findRepaymentById_cons_self rest (show ({ r with status := s } : RepaymentDoc).oid = i from h),
        findRepaymentById_cons_self rest h]
      rfl
    · rw [setRepaymentStatus, if_neg h, findRepaymentById_cons_ne _ h,
        findRepaymentById_cons_ne _ h, ih]

lemma findLoanById_cons_self {l : Loan} (rest : List Loan) {i : Nat}
    (h : l.oid = i) : findLoanById (l :: rest) i = some l := by
  simp [findLoanById, h]

lemma findLoanById_cons_ne {l : Loan} (rest : List Loan) {i : Nat}
    (h : l.oid ≠ i) : findLoanById (l :: rest) i = findLoanById rest i := by
  simp [findLoanById, h]

lemma findLoanById_set_eq (ls : List Loan) (i : Nat) (s : String) :
    findLoanById (setLoanStatus ls i s) i =
      (findLoanById ls i).map (fun l => { l with status := s }) := by
  induction ls with
  | nil => rfl
  | cons l rest ih =>
    by_cases h : l.oid = i
    · rw [setLoanStatus, if_pos h,
        findLoanById_cons_self rest (show ({ l with status := s } : Loan).oid = i from h),
        findLoanById_cons_self rest h]
      rfl
    · rw [setLoanStatus, if_neg h, findLoanById_cons_ne _ h,
        findLoanById_cons_ne _ h, ih]

lemma findLoanById_oid {ls : List Loan} {i : Nat} {l : Loan}
    (h : findLoanById ls i = some l) : l.oid = i := by
  unfold findLoanById at h
  simpa using List.find?_some h

/-- Claim C6: approving a pending repayment marks it "verified", and the loan
is marked "repaid" exactly when the verified sum (over the updated
repayments) reaches principal + 10% interest + a late fee of 5% of the
principal per late month, with the late-month count `(elapsed days) / 30 + 1`
once the due date has passed; below the threshold the loans collection is
untouched. -/
theorem approve_repayment_closure (db : DB) (rid : Nat) (now : Int)
    (r : RepaymentDoc) (loan : Loan)
    (hr : findRepaymentById db.repayments rid = some r)
    (hst : r.status = "pending_verification")
    (hl : findLoanById db.loans r.loanId = some loan) :
    ∃ db', approve_repayment db rid now = .ok db' ∧
      findRepaymentById db'.repayments rid = some { r with status := "verified" } ∧
      totalDue loan now = loan.amount + loan.amount * (10 / 100) +
        (if loan.dueDate < now then
          loan.amount * (5 / 100) * ((((now - loan.dueDate).fdiv 86400).fdiv 30 + 1 : Int) : ℚ)
         else 0) ∧
      (totalDue loan now ≤
          verifiedTotal (setRepaymentStatus db.repayments rid "verified") loan.oid →
        findLoanById db'.loans loan.oid = some { loan with status := "repaid" }) ∧
      (verifiedTotal (setRepaymentStatus db.repayments rid "verified") loan.oid <
          totalDue loan now →
        db'.loans = db.loans) := by
  have hloid : loan.oid = r.loanId := findLoanById_oid hl
  refine ⟨{ db with
            repayments := setRepaymentStatus db.repayments rid "verified",
            loans := if totalDue loan now ≤
                verifiedTotal (setRepaymentStatus db.repayments rid "verified") loan.oid
              then setLoanStatus db.loans loan.oid "repaid" else db.loans },
    ?_, ?_, ?_, ?_, ?_⟩
  · simp [approve_repayment, hr, hst, hl]
  · show findRepaymentById (setRepaymentStatus db.repayments rid "verified") rid = _
    rw [findRepaymentById_set_eq, hr]
    rfl
  · rfl
  · intro hc
    have hl2 : findLoanById db.loans loan.oid = some loan := by
      rw [hloid]; exact hl
    show findLoanById
      (if totalDue loan now ≤
          verifiedTotal (setRepaymentStatus db.repayments rid "verified") loan.oid
        then setLoanStatus db.loans loan.oid "repaid" else db.loans) loan.oid = _
    rw [if_pos hc, findLoanById_set_eq, hl2]
    rfl
  · intro hc
    show (if totalDue loan now ≤
          verifiedTotal (setRepaymentStatus db.repayments rid "verified") loan.oid
        then setLoanStatus db.loans loan.oid "repaid" else db.loans) = db.loans
    rw [if_neg (not_le.mpr hc)]

/-- The 1000-HTG loan of the C6 example: due at time 0, disbursed. -/
def loanK : Loan :=
  { oid := 1, userId := "u1", amount := 1000, currency := "HTG",
    disbursementStatus := "completed", status := "disbursed", dueDate := 0 }

/-- A database holding `loanK` and one pending repayment of amount `a`. -/
def dbRepay (a : ℚ) : DB :=
  { users := [], loans := [loanK], wallets := [], withdrawals := [],
    repayments := [{ oid := 5, loanId := 1, userId := "u1", amount := a,
                     status := "pending_verification" }] }

lemma totalDue_loanK : totalDue loanK (40 * 86400) = 1200 := by
  have hm : (((40 * 86400 - 0 : Int)).fdiv 86400).fdiv 30 + 1 = 2 := by decide
  simp only [totalDue, monthsLate, loanK]
  rw [if_pos (by decide : (0 : Int) < 40 * 86400), hm]
  norm_num

lemma verifiedTotal_dbRepay (a : ℚ) :
    verifiedTotal (setRepaymentStatus (dbRepay a).repayments 5 "verified") 1 = a := by
  norm_num [verifiedTotal, setRepaymentStatus, dbRepay]

/-- Witness for C6: principal 1000, due date passed by 40 days, so the total
due is 1200; a verified payment of 1200 closes the loan and a verified
payment of 1199 leaves the loans collection untouched. -/
theorem approve_repayment_closure_witness :
    (∃ db', approve_repayment (dbRepay 1200) 5 (40 * 86400) = .ok db' ∧
      findLoanById db'.loans 1 = some { loanK with status := "repaid" }) ∧
    (∃ db2, approve_repayment (dbRepay 1199) 5 (40 * 86400) = .ok db2 ∧
      db2.loans = (dbRepay 1199).loans) := by
  constructor
  · obtain ⟨db', h1, h2, h3, h4, h5⟩ :=
      approve_repayment_closure (dbRepay 1200) 5 (40 * 86400)
        { oid := 5, loanId := 1, userId := "u1", amount := 1200,
          status := "pending_verification" }
        loanK rfl rfl rfl
    refine ⟨db', h1, ?_⟩
    have hc : totalDue loanK (40 * 86400) ≤
        verifiedTotal (setRepaymentStatus (dbRepay 1200).repayments 5 "verified")
          loanK.oid := by
      rw [totalDue_loanK]
      exact le_of_eq (verifiedTotal_dbRepay 1200).symm
    exact h4 hc
  · obtain ⟨db2, h1, h2, h3, h4, h5⟩ :=
      approve_repayment_closure (dbRepay 1199) 5 (40 * 86400)
        { oid := 5, loanId := 1, userId := "u1", amount := 1199,
          status := "pending_verification" }
        loanK rfl rfl rfl
    refine ⟨db2, h1, ?_⟩
    have hc : verifiedTotal (setRepaymentStatus (dbRepay 1199).repayments 5 "verified")
        loanK.oid < totalDue loanK (40 * 86400) := by
      rw [totalDue_loanK]
      rw [show (loanK.oid : Nat) = 1 from rfl, verifiedTotal_dbRepay 1199]
      norm_num
    exact h5 hc

/-!  ### Withdrawal creation, loan-balance variant (src/withdrawals.py)  -/

inductive CreateErr
  | nonPositive
  | invalidMethod
  | insufficientBalance
deriving DecidableEq

/-- `sum(loan['amount'] for loan in loans)` over the user's loans with status
"disbursed" (withdrawals.py lines 78-82): the insufficient-balance check
reads only the loans collection. -/
def availableBalance (db : DB) (uid : String) : ℚ :=
  ((db.loans.filter (fun l => l.userId == uid && l.status == "disbursed")).map
    (fun l => l.amount)).sum

/-- `create_withdrawal` (withdrawals.py lines 49-107): validate the amount
and the payment method, compare the amount against the disbursed-loan
balance, and insert a pending withdrawal.  Nothing else is written.  The
missing-field and numeric-parse failures are folded into `nonPositive` as in
`make_withdrawal`. -/
def create_withdrawal (db : DB) (uid : String) (amount : ℚ) (method : String) (wid : Nat) :
    Except CreateErr WithdrawalDoc × DB :=
  if amount ≤ 0 then (.error .nonPositive, db)
  else if method = "MonCash" ∨ method = "NatCash" then
    if availableBalance db uid < amount then (.error .insufficientBalance, db)
    else
      let wd : WithdrawalDoc := { oid := wid, userId := uid, amount := amount,
                                  walletDeductions := [], status := "pending" }
      (.ok wd, { db with withdrawals := db.withdrawals ++ [wd] })
  else (.error .invalidMethod, db)

/-- Claim C10: in the loan-balance variant a successful creation appends one
pending withdrawal document and changes no loan, wallet, user or repayment
document; the balance it checks against is the sum of the user's disbursed
loan amounts, which previous withdrawals do not reduce — so an identical
second request still succeeds. -/
theorem create_withdrawal_frame (db : DB) (uid : String) (amount : ℚ) (method : String)
    (wid wid2 : Nat)
    (hpos : 0 < amount)
    (hm : method = "MonCash" ∨ method = "NatCash")
    (hle : amount ≤ availableBalance db uid) :
    ∃ wd db', create_withdrawal db uid amount method wid = (.ok wd, db') ∧
      wd.status = "pending" ∧
      db' = { db with withdrawals := db.withdrawals ++ [wd] } ∧
      db'.loans = db.loans ∧ db'.wallets = db.wallets ∧ db'.users = db.users ∧
      db'.repayments = db.repayments ∧
      availableBalance db' uid = availableBalance db uid ∧
      ∃ wd2 db2, create_withdrawal db' uid amount method wid2 = (.ok wd2, db2) := by
  have h0 : ¬ amount ≤ 0 := not_le.mpr hpos
  have hns : ¬ availableBalance db uid < amount := not_lt.mpr hle
  set wd : WithdrawalDoc :=
    { oid := wid, userId := uid, amount := amount,
      walletDeductions := [], status := "pending" } with hwd
  set db1 : DB := { db with withdrawals := db.withdrawals ++ [wd] } with hdb1
  have havail : availableBalance db1 uid = availableBalance db uid := rfl
  have hsucc : create_withdrawal db uid amount method wid = (.ok wd, db1) := by
    simp only [create_withdrawal, if_neg h0, if_pos hm, if_neg hns]
  have hns2 : ¬ availableBalance db1 uid < amount := by rw [havail]; exact hns
  have hsucc2 : create_withdrawal db1 uid amount method wid2 =
      (.ok { oid := wid2, userId := uid, amount := amount,
             walletDeductions := [], status := "pending" },
       { db1 with withdrawals := db1.withdrawals ++
          [{ oid := wid2, userId := uid, amount := amount,
             walletDeductions := [], status := "pending" }] }) := by
    simp only [create_withdrawal, if_neg h0, if_pos hm, if_neg hns2]
  exact ⟨wd, db1, hsucc, rfl, rfl, rfl, rfl, rfl, rfl, havail, _, _, hsucc2⟩

/-- One disbursed loan of 500 for `u1`. -/
def dbDisbursed : DB :=
  { users := [],
    loans := [{ oid := 31, userId := "u1", amount := 500, currency := "HTG",
                disbursementStatus := "pending", status := "disbursed", dueDate := 0 }],
    wallets := [], withdrawals := [], repayments := [] }

/-- Witness for C10: a 200-HTG MonCash request against a 500-HTG disbursed
loan succeeds, only appends the pending document, and an identical second
request succeeds as well. -/
theorem create_withdrawal_frame_witness :
    ∃ wd db', create_withdrawal dbDisbursed "u1" 200 "MonCash" 1 = (.ok wd, db') ∧
      wd.status = "pending" ∧
      db' = { dbDisbursed with withdrawals := dbDisbursed.withdrawals ++ [wd] } ∧
      db'.loans = dbDisbursed.loans ∧ db'.wallets = dbDisbursed.wallets ∧
      db'.users = dbDisbursed.users ∧ db'.repayments = dbDisbursed.repayments ∧
      availableBalance db' "u1" = availableBalance dbDisbursed "u1" ∧
      ∃ wd2 db2, create_withdrawal db' "u1" 200 "MonCash" 2 = (.ok wd2, db2) :=
  create_withdrawal_frame dbDisbursed "u1" 200 "MonCash" 1 2 (by norm_num)
    (Or.inl rfl) (by norm_num [availableBalance, dbDisbursed])

end Kredinou
